import Mathlib

/-!
Verification of the deposit / transaction-listing core of a small fintech
REST API (Express + PostgreSQL), shallowly embedded in Lean 4.

Source files embedded:
  * `src/routes/deposits.ts`     — POST /deposits handler (`deposit` below)
  * `src/routes/transactions.ts` — GET /transactions handler
    (`listValidate` / `listTransactionsRel` below)
  * accounts route (POST /accounts handler) — `createAccount` below
  * migrations — the `accounts` / `transactions` tables:
    `balance NUMERIC(15,2) DEFAULT 0 CHECK (balance >= 0)`,
    `amount NUMERIC(15,2) NOT NULL CHECK (amount > 0)`.

Modelling conventions:
  * SQL `NUMERIC(15,2)` values are exact rationals; writing a value into a
    NUMERIC(15,2) column rounds it to two fractional digits (`round2`) and
    enforces the column's CHECK constraints and its 13-integer-digit range
    (`maxNumeric`); a violated constraint raises, which the handler's
    catch-block turns into a rollback plus a 500 INTERNAL_ERROR response.
  * JavaScript's `parseFloat(account.balance) + amount` is modelled as exact
    rational addition.  (The binary floating-point detour the real code takes
    is *not* modelled; the one claim that is about that detour is settled as
    not statable, see the results.)
  * `gen_random_uuid()` / `NOW()` are oracle inputs (`txId`, `now`); the
    primary-key uniqueness that the database would enforce on a colliding
    UUID is modelled by an explicit membership check inside the transaction,
    whose failure takes the rollback path, exactly like any other insert
    fault.
  * Faults of the storage engine during the atomic block are modelled by the
    `Fault` oracle: `Fault.atInsert` makes the `INSERT` fail, `Fault.atUpdate`
    makes the `UPDATE`/`COMMIT` fail.  The handler's catch-block then rolls
    the transaction back, leaving the store untouched.
  * The `ORDER BY created_at DESC` of the listing query fixes the order only
    up to ties on `created_at`; the embedding therefore describes the listing
    result by a relation (`listTransactionsRel`) that accepts every
    permutation of the account's entries that is sorted by `created_at`
    descending.
-/

/-- JSON scalar values as they arrive in a request body; mirrors the
JavaScript dynamic typing that `typeof amount !== 'number'` inspects. -/
inductive JsVal where
  | num (q : ℚ)
  | str (s : String)
  | boolv (b : Bool)
  | nullv
  | undef
deriving DecidableEq, Repr

/-- Error discriminators used by the API (the `error.code` field). -/
inductive ErrCode where
  | VALIDATION_ERROR
  | NOT_FOUND
  | FORBIDDEN
  | INTERNAL_ERROR
deriving DecidableEq, Repr

/-- The `error` object of a failure response: discriminator plus message. -/
structure ErrorBody where
  code : ErrCode
  message : String
deriving DecidableEq, Repr

/-- A row of the `accounts` table. -/
structure Account where
  id : String
  user_id : String
  currency : String
  balance : ℚ
  created_at : Nat
deriving DecidableEq, Repr

/-- A row of the `transactions` table (a ledger entry). -/
structure Tx where
  id : String
  account_id : String
  type : String
  amount : ℚ
  reference : Option String
  created_at : Nat
deriving DecidableEq, Repr

/-- The durable store: the two tables the core touches. -/
structure Store where
  accounts : List Account
  transactions : List Tx
deriving DecidableEq, Repr

/-- Rounding to two fractional digits, as PostgreSQL does when a value is
stored into a NUMERIC(15,2) column.  (PostgreSQL rounds half away from zero;
`round` rounds half up, which agrees on the non-negative values that can
reach a column here.) -/
def round2 (q : ℚ) : ℚ := (round (q * 100) : ℤ) / 100

/-- `q` is representable with two fractional digits (it lies on the cent
grid of a NUMERIC(15,2) column). -/
def grid (q : ℚ) : Prop := (q * 100).den = 1

instance (q : ℚ) : Decidable (grid q) := by unfold grid; infer_instance

/-- Largest value a NUMERIC(15,2) column can hold: 13 integer digits. -/
def maxNumeric : ℚ := (10 ^ 15 - 1) / 100

/-- `reference || null`: JavaScript's `||` maps the empty string (falsy) to
`null` as well. -/
def refNorm (r : Option String) : Option String :=
  match r with
  | some s => if s = "" then none else some s
  | none => none

/-- Request body of POST /deposits.  `accountId` is absent or a string;
`amount` is an arbitrary JSON value (its type is checked by the handler);
`reference` is absent or a string. -/
structure DepositReq where
  accountId : Option String
  amount : JsVal
  reference : Option String
deriving DecidableEq, Repr

/-- Outcome of POST /deposits: the 201 body `{transactionId, newBalance}` or
a status code with an error body. -/
inductive DepResult where
  | ok (transactionId : String) (newBalance : ℚ)
  | err (status : Nat) (body : ErrorBody)
deriving DecidableEq, Repr

/-- Storage-engine fault injected into the deposit's atomic block. -/
inductive Fault where
  | noFault
  | atInsert
  | atUpdate
deriving DecidableEq, Repr

/-- The 500 response produced by the deposit handler's catch-block. -/
def depositInternalErr : DepResult :=
  .err 500 ⟨.INTERNAL_ERROR, "Failed to process deposit"⟩

/-- The store after a deposit's atomic block commits: one ledger entry of
kind "deposit" appended, and the balance of every row whose id is
`aid` set to the rounded new balance.  (The primary key makes that row
unique in any well-formed store.) -/
def committedStore (s : Store) (aid : String) (a : ℚ) (txId : String)
    (now : Nat) (ref : Option String) (acct : Account) : Store :=
  { accounts := s.accounts.map fun x =>
      if x.id = aid then { x with balance := round2 (acct.balance + a) } else x,
    transactions := s.transactions ++
      [{ id := txId, account_id := aid, type := "deposit",
         amount := round2 a, reference := refNorm ref, created_at := now }] }

/-- POST /deposits (src/routes/deposits.ts).  `userId` is the authenticated
user, `txId` the uuid the database would generate, `now` the insertion
timestamp, `f` the injected storage fault.  Returns the store after the
request together with the response. -/
def deposit (req : DepositReq) (userId : String) (txId : String) (now : Nat)
    (f : Fault) (s : Store) : Store × DepResult :=
  match req.accountId with
  | none => (s, .err 400 ⟨.VALIDATION_ERROR, "accountId is required"⟩)
  | some aid =>
    if aid = "" then (s, .err 400 ⟨.VALIDATION_ERROR, "accountId is required"⟩)
    else
      match req.amount with
      | .num a =>
        if a ≤ 0 then
          (s, .err 400 ⟨.VALIDATION_ERROR, "amount must be greater than 0"⟩)
        else
          match s.accounts.find? (fun x => x.id == aid) with
          | none => (s, .err 404 ⟨.NOT_FOUND, "Account not found"⟩)
          | some acct =>
            if acct.user_id ≠ userId then
              (s, .err 403 ⟨.FORBIDDEN, "You do not have access to this account"⟩)
            else
              -- BEGIN; INSERT INTO transactions ...
              if f = .atInsert ∨ txId ∈ s.transactions.map (fun t => t.id) ∨
                  ¬ (0 < round2 a ∧ round2 a ≤ maxNumeric) then
                (s, depositInternalErr)
              else
                -- newBalance = parseFloat(account.balance) + amount
                let newBalance := acct.balance + a
                -- UPDATE accounts SET balance = $1 ...; COMMIT
                if f = .atUpdate ∨
                    ¬ (0 ≤ round2 newBalance ∧ round2 newBalance ≤ maxNumeric) then
                  (s, depositInternalErr)
                else
                  (committedStore s aid a txId now req.reference acct,
                   .ok txId newBalance)
      | _ => (s, .err 400 ⟨.VALIDATION_ERROR, "amount must be a number"⟩)

/-- Outcome of POST /accounts. -/
inductive AcctResult where
  | ok (id : String) (currency : String) (balance : ℚ)
  | err (status : Nat) (body : ErrorBody)
deriving DecidableEq, Repr

/-- The `accounts` row `INSERT INTO accounts (user_id, currency, balance)
VALUES ($1, $2, 0)` creates. -/
def newAccountRow (cur userId newId : String) (now : Nat) : Account :=
  { id := newId, user_id := userId, currency := cur, balance := 0,
    created_at := now }

/-- POST /accounts (accounts route): validates the currency and inserts a
row with balance 0.  `newId` is the uuid the database would generate. -/
def createAccount (currency : Option String) (userId : String)
    (newId : String) (now : Nat) (s : Store) : Store × AcctResult :=
  match currency with
  | none => (s, .err 400 ⟨.VALIDATION_ERROR, "Currency is required"⟩)
  | some c =>
    if c = "" then (s, .err 400 ⟨.VALIDATION_ERROR, "Currency is required"⟩)
    else if ¬ (c = "EUR" ∨ c = "USD") then
      (s, .err 400 ⟨.VALIDATION_ERROR, "Currency must be EUR or USD"⟩)
    else if newId ∈ s.accounts.map (fun x => x.id) then
      (s, .err 500 ⟨.INTERNAL_ERROR, "An unexpected error occurred"⟩)
    else
      ({ s with accounts := s.accounts ++ [newAccountRow c userId newId now] },
       .ok newId c 0)

/-- The decimal digits at the front of a character list, as JavaScript's
`parseInt` consumes them. -/
def leadingDigits (cs : List Char) : List Char := cs.takeWhile (fun c => c.isDigit)

/-- Value of a (non-empty) digit list read in base 10. -/
def digitsToNat (ds : List Char) : Nat :=
  ds.foldl (fun acc c => acc * 10 + (c.toNat - 48)) 0

/-- JavaScript's `parseInt(s, 10)`: skip leading whitespace, read an optional
sign and then the longest run of decimal digits; `none` models `NaN` (no
digits found). -/
def parseIntJS (s : String) : Option Int :=
  let body := s.data.dropWhile (fun c => c = ' ' ∨ c = '\t' ∨ c = '\n' ∨ c = '\r')
  let signed : Bool × List Char :=
    match body with
    | '-' :: rest => (true, rest)
    | '+' :: rest => (false, rest)
    | cs => (false, cs)
  let ds := leadingDigits signed.2
  if ds = [] then none
  else if signed.1 then some (-(digitsToNat ds : Int))
  else some (digitsToNat ds : Int)

/-- Query parameters of GET /transactions.  Each is a string when present. -/
structure ListReq where
  accountId : Option String
  page : Option String
  limit : Option String
deriving DecidableEq, Repr

/-- `const { page = '1' } = req.query`. -/
def pageStr (r : ListReq) : String := r.page.getD "1"

/-- `const { limit = '20' } = req.query`. -/
def limitStr (r : ListReq) : String := r.limit.getD "20"

/-- Outcome of GET /transactions: the 200 body
`{items, page, limit, total}` or a status code with an error body. -/
inductive ListOut where
  | ok (items : List Tx) (page : Int) (limit : Int) (total : Nat)
  | err (status : Nat) (body : ErrorBody)
deriving DecidableEq, Repr

/-- The ledger entries belonging to account `aid`
(`WHERE account_id = $1`). -/
def txsOf (s : Store) (aid : String) : List Tx :=
  s.transactions.filter (fun t => t.account_id == aid)

/-- The validation / lookup prefix of GET /transactions
(src/routes/transactions.ts), up to but excluding the paginated query:
returns the error response it would send, or the account row together with
the parsed page and limit. -/
def listValidate (req : ListReq) (userId : String) (s : Store) :
    Except (Nat × ErrorBody) (Account × Int × Int) :=
  match req.accountId with
  | none => .error (400, ⟨.VALIDATION_ERROR, "accountId is required"⟩)
  | some aid =>
    if aid = "" then .error (400, ⟨.VALIDATION_ERROR, "accountId is required"⟩)
    else
      match parseIntJS (pageStr req) with
      | none => .error (400, ⟨.VALIDATION_ERROR, "page must be a positive integer"⟩)
      | some pageNum =>
        if pageNum < 1 then
          .error (400, ⟨.VALIDATION_ERROR, "page must be a positive integer"⟩)
        else
          match parseIntJS (limitStr req) with
          | none => .error (400, ⟨.VALIDATION_ERROR, "limit must be a positive integer"⟩)
          | some limitNum =>
            if limitNum < 1 then
              .error (400, ⟨.VALIDATION_ERROR, "limit must be a positive integer"⟩)
            else if limitNum > 100 then
              .error (400, ⟨.VALIDATION_ERROR, "limit cannot exceed 100"⟩)
            else
              match s.accounts.find? (fun x => x.id == aid) with
              | none => .error (404, ⟨.NOT_FOUND, "Account not found"⟩)
              | some acct =>
                if acct.user_id ≠ userId then
                  .error (403, ⟨.FORBIDDEN, "You do not have access to this account"⟩)
                else
                  .ok (acct, pageNum, limitNum)

/-- Descending order on creation timestamps (later rows first), the
comparison `ORDER BY created_at DESC` sorts by. -/
def createdDesc (x y : Tx) : Prop := y.created_at ≤ x.created_at

instance : DecidableRel createdDesc := by unfold createdDesc; infer_instance

/-- GET /transactions as a relation between a request and a possible
response.  The `ORDER BY created_at DESC` of the paginated query determines
the row order only up to ties on `created_at`, so any permutation of the
account's entries that is sorted by `created_at` descending may be the one
the window `LIMIT $2 OFFSET $3` is cut from. -/
def listTransactionsRel (req : ListReq) (userId : String) (s : Store)
    (out : ListOut) : Prop :=
  match listValidate req userId s with
  | .error (st, e) => out = .err st e
  | .ok (acct, pageNum, limitNum) =>
    ∃ ordered : List Tx,
      ordered.Perm (txsOf s acct.id) ∧ ordered.Sorted createdDesc ∧
      out = .ok ((ordered.drop ((pageNum - 1) * limitNum).toNat).take limitNum.toNat)
        pageNum limitNum (txsOf s acct.id).length

/-- Sum of the amounts of account `aid`'s ledger entries
(`sum(ledger_entries.amount)` of the spec's invariant). -/
def txSum (s : Store) (aid : String) : ℚ :=
  ((txsOf s aid).map (fun t => t.amount)).sum

/-- Well-formedness of the store, as the schema's constraints state it:
every account's balance is the sum of its entries' amounts, non-negative and
on the cent grid (NUMERIC(15,2)); every entry's amount is positive and on
the grid (`CHECK (amount > 0)`), and references an existing account
(the foreign key). -/
def StoreInv (s : Store) : Prop :=
  (∀ a ∈ s.accounts, a.balance = txSum s a.id ∧ 0 ≤ a.balance ∧ grid a.balance) ∧
  (∀ t ∈ s.transactions, 0 < t.amount ∧ grid t.amount ∧
      t.account_id ∈ s.accounts.map (fun x => x.id))

instance (s : Store) : Decidable (StoreInv s) := by unfold StoreInv; infer_instance

/-- A state-mutating call of the core: an account creation or a deposit,
with its oracle inputs. -/
inductive Op where
  | create (currency : Option String) (userId : String) (newId : String) (now : Nat)
  | dep (req : DepositReq) (userId : String) (txId : String) (now : Nat) (f : Fault)

/-- The store after one call (the response is dropped). -/
def applyOp (s : Store) (op : Op) : Store :=
  match op with
  | .create c u i n => (createAccount c u i n s).1
  | .dep r u t n f => (deposit r u t n f s).1

/-- The store after a sequence of calls. -/
def applyOps (s : Store) (ops : List Op) : Store := ops.foldl applyOp s

/-- The ledger entry a committed deposit appends. -/
def depEntry (aid : String) (a : ℚ) (txId : String) (now : Nat)
    (ref : Option String) : Tx :=
  { id := txId, account_id := aid, type := "deposit", amount := round2 a,
    reference := refNorm ref, created_at := now }

theorem grid_zero : grid 0 := by
  unfold grid
  norm_num

theorem round2_grid (q : ℚ) : grid (round2 q) := by
  unfold grid round2
  rw [div_mul_cancel₀ _ (by norm_num : (100 : ℚ) ≠ 0)]
  exact Rat.den_intCast _

theorem grid_add {a b : ℚ} (ha : grid a) (hb : grid b) : grid (a + b) := by
  unfold grid at *
  have h1 := (Rat.den_eq_one_iff _).1 ha
  have h2 := (Rat.den_eq_one_iff _).1 hb
  rw [add_mul, ← h1, ← h2, ← Int.cast_add]
  exact Rat.den_intCast _

theorem round2_eq_self {q : ℚ} (h : grid q) : round2 q = q := by
  unfold round2
  have h1 := (Rat.den_eq_one_iff _).1 h
  rw [← h1, round_intCast, h1]
  field_simp

theorem round2_add_grid {b : ℚ} (a : ℚ) (hb : grid b) :
    round2 (b + a) = b + round2 a := by
  unfold round2
  have h1 := (Rat.den_eq_one_iff _).1 hb
  have hrw : (b + a) * 100 = ((b * 100).num : ℚ) + a * 100 := by rw [h1]; ring
  rw [hrw, round_int_add, Int.cast_add, add_div, h1]
  congr 1
  field_simp

theorem txsOf_committedStore (s : Store) (aid : String) (a : ℚ) (txId : String)
    (now : Nat) (ref : Option String) (acct : Account) (bid : String) :
    txsOf (committedStore s aid a txId now ref acct) bid =
      txsOf s bid ++ if aid = bid then [depEntry aid a txId now ref] else [] := by
  unfold txsOf committedStore depEntry
  rw [List.filter_append]
  congr 1
  by_cases h : aid = bid
  · have hb : (aid == bid) = true := by simpa using h
    simp [List.filter, h, hb]
  · have hb : (aid == bid) = false := by simpa using h
    simp [List.filter, h, hb]

theorem txSum_committedStore (s : Store) (aid : String) (a : ℚ) (txId : String)
    (now : Nat) (ref : Option String) (acct : Account) (bid : String) :
    txSum (committedStore s aid a txId now ref acct) bid =
      txSum s bid + if aid = bid then round2 a else 0 := by
  unfold txSum
  rw [txsOf_committedStore]
  by_cases h : aid = bid <;> simp [h, depEntry]

theorem ids_committedStore (s : Store) (aid : String) (a : ℚ) (txId : String)
    (now : Nat) (ref : Option String) (acct : Account) :
    (committedStore s aid a txId now ref acct).accounts.map (fun x => x.id) =
      s.accounts.map (fun x => x.id) := by
  unfold committedStore
  rw [List.map_map]
  apply List.map_congr_left
  intro x _
  by_cases h : x.id = aid <;> simp [Function.comp, h]

theorem storeInv_committedStore (s : Store) (aid : String) (a : ℚ)
    (txId : String) (now : Nat) (ref : Option String) (acct : Account)
    (h : StoreInv s)
    (hfind : s.accounts.find? (fun x => x.id == aid) = some acct)
    (hpos : 0 < round2 a)
    (hnn : 0 ≤ round2 (acct.balance + a)) :
    StoreInv (committedStore s aid a txId now ref acct) := by
  obtain ⟨hA, hT⟩ := h
  have hacctmem : acct ∈ s.accounts := List.mem_of_find?_eq_some hfind
  have hacctid : acct.id = aid := by simpa using List.find?_some hfind
  have hbal : acct.balance = txSum s aid := by
    rw [← hacctid]; exact (hA acct hacctmem).1
  have hgridb : grid acct.balance := (hA acct hacctmem).2.2
  have hnb : round2 (acct.balance + a) = acct.balance + round2 a :=
    round2_add_grid a hgridb
  constructor
  · intro x hx
    obtain ⟨y, hy, rfl⟩ := List.mem_map.1 hx
    by_cases hid : y.id = aid
    · refine ⟨?_, ?_, ?_⟩
      · simp only [hid, if_pos]
        rw [txSum_committedStore]
        simp only [hid, if_pos]
        rw [hnb, hbal]
      · simpa [hid] using hnn
      · simpa [hid] using round2_grid (acct.balance + a)
    · have hy' := hA y hy
      refine ⟨?_, ?_, ?_⟩
      · simp only [if_neg hid]
        rw [txSum_committedStore]
        rw [if_neg (fun hh => hid hh.symm), add_zero]
        exact hy'.1
      · simpa [if_neg hid] using hy'.2.1
      · simpa [if_neg hid] using hy'.2.2
  · intro t ht
    rw [ids_committedStore]
    rcases List.mem_append.1 ht with hold | hnew
    · exact hT t hold
    · have : t = depEntry aid a txId now ref := by
        simpa [committedStore, depEntry] using hnew
      subst this
      refine ⟨hpos, round2_grid a, ?_⟩
      simpa [depEntry] using ⟨acct, hacctmem, hacctid⟩

theorem storeInv_deposit (req : DepositReq) (u t : String) (n : Nat)
    (f : Fault) (s : Store) (h : StoreInv s) :
    StoreInv (deposit req u t n f s).1 := by
  obtain ⟨accId, amt, ref⟩ := req
  cases accId with
  | none => simpa [deposit] using h
  | some aid =>
    by_cases ha : aid = ""
    · simpa [deposit, ha] using h
    · cases amt with
      | num a =>
        by_cases hle : a ≤ 0
        · simpa [deposit, ha, hle] using h
        · cases hfind : s.accounts.find? (fun x => x.id == aid) with
          | none => simpa [deposit, ha, hle, hfind] using h
          | some acct =>
            by_cases hu : acct.user_id ≠ u
            · simpa [deposit, ha, hle, hfind, hu] using h
            · by_cases hg1 : f = .atInsert ∨ t ∈ s.transactions.map (fun t => t.id) ∨
                  ¬ (0 < round2 a ∧ round2 a ≤ maxNumeric)
              · have hres : (deposit ⟨some aid, .num a, ref⟩ u t n f s).1 = s := by
                  simp only [deposit]
                  rw [if_neg ha, if_neg hle, hfind]
                  simp only [if_neg hu]
                  rw [if_pos hg1]
                rw [hres]; exact h
              · by_cases hg2 : f = .atUpdate ∨
                    ¬ (0 ≤ round2 (acct.balance + a) ∧ round2 (acct.balance + a) ≤ maxNumeric)
                · have hres : (deposit ⟨some aid, .num a, ref⟩ u t n f s).1 = s := by
                    simp only [deposit]
                    rw [if_neg ha, if_neg hle, hfind]
                    simp only [if_neg hu]
                    rw [if_neg hg1, if_pos hg2]
                  rw [hres]; exact h
                · have hres : (deposit ⟨some aid, .num a, ref⟩ u t n f s).1 =
                      committedStore s aid a t n ref acct := by
                    simp only [deposit]
                    rw [if_neg ha, if_neg hle, hfind]
                    simp only [if_neg hu]
                    rw [if_neg hg1, if_neg hg2]
                  rw [hres]
                  push_neg at hg1 hg2
                  exact storeInv_committedStore s aid a t n ref acct h hfind
                    hg1.2.2.1 hg2.2.1
      | str v => simpa [deposit, ha] using h
      | boolv v => simpa [deposit, ha] using h
      | nullv => simpa [deposit, ha] using h
      | undef => simpa [deposit, ha] using h

theorem storeInv_createAccount (c : Option String) (u newId : String)
    (n : Nat) (s : Store) (h : StoreInv s) :
    StoreInv (createAccount c u newId n s).1 := by
  obtain ⟨hA, hT⟩ := h
  cases c with
  | none => simpa [createAccount] using ⟨hA, hT⟩
  | some cur =>
    by_cases hc : cur = ""
    · simpa [createAccount, hc] using ⟨hA, hT⟩
    · by_cases hcv : ¬ (cur = "EUR" ∨ cur = "USD")
      · simpa [createAccount, hc, hcv] using ⟨hA, hT⟩
      · by_cases hmem : newId ∈ s.accounts.map (fun x => x.id)
        · simpa [createAccount, hc, hcv, hmem] using ⟨hA, hT⟩
        · have hres : (createAccount (some cur) u newId n s).1 =
              { s with accounts := s.accounts ++ [newAccountRow cur u newId n] } := by
            simp only [createAccount]
            rw [if_neg hc, if_neg hcv, if_neg hmem]
          rw [hres]
          have htx : ∀ bid, txSum { s with accounts :=
              s.accounts ++ [newAccountRow cur u newId n] } bid = txSum s bid :=
            fun _ => rfl
          constructor
          · intro x hx
            rcases List.mem_append.1 hx with hold | hnew
            · have hx' := hA x hold
              refine ⟨?_, hx'.2.1, hx'.2.2⟩
              rw [htx]
              exact hx'.1
            · have hxeq : x = newAccountRow cur u newId n := by simpa using hnew
              subst hxeq
              refine ⟨?_, le_refl 0, grid_zero⟩
              show (0 : ℚ) = txSum _ (newAccountRow cur u newId n).id
              have hempty : txsOf s newId = [] := by
                unfold txsOf
                rw [List.filter_eq_nil_iff]
                intro t ht hbeq
                have : t.account_id = newId := by simpa using hbeq
                exact hmem (this ▸ (hT t ht).2.2)
              rw [htx]
              show (0 : ℚ) = txSum s newId
              unfold txSum
              rw [hempty]
              simp
          · intro t ht
            have ht' := hT t ht
            refine ⟨ht'.1, ht'.2.1, ?_⟩
            rw [List.map_append]
            exact List.mem_append_left _ ht'.2.2

theorem storeInv_applyOp (s : Store) (op : Op) (h : StoreInv s) :
    StoreInv (applyOp s op) := by
  cases op with
  | create c u i n => exact storeInv_createAccount c u i n s h
  | dep r u t n f => exact storeInv_deposit r u t n f s h

theorem storeInv_applyOps (s : Store) (ops : List Op) (h : StoreInv s) :
    StoreInv (applyOps s ops) := by
  induction ops generalizing s with
  | nil => exact h
  | cons op rest ih => exact ih _ (storeInv_applyOp s op h)

theorem deposit_commits (aid userId txId : String) (now : Nat)
    (ref : Option String) (a : ℚ) (s : Store) (acct : Account)
    (hne : aid ≠ "") (ha : 0 < a)
    (hfind : s.accounts.find? (fun x => x.id == aid) = some acct)
    (hown : acct.user_id = userId)
    (ht : txId ∉ s.transactions.map (fun t => t.id))
    (hra : 0 < round2 a) (hrafit : round2 a ≤ maxNumeric)
    (hnn : 0 ≤ round2 (acct.balance + a))
    (hnfit : round2 (acct.balance + a) ≤ maxNumeric) :
    deposit ⟨some aid, .num a, ref⟩ userId txId now .noFault s =
      (committedStore s aid a txId now ref acct, .ok txId (acct.balance + a)) := by
  simp only [deposit]
  rw [if_neg hne, if_neg (not_le.2 ha), hfind]
  simp only [if_neg (not_not_intro hown)]
  rw [if_neg (show ¬ _ by push_neg; exact ⟨by simp, ht, hra, hrafit⟩)]
  rw [if_neg (show ¬ _ by push_neg; exact ⟨by simp, hnn, hnfit⟩)]

/-- Inversion: a deposit that answered 201 went through the committed
branch, with all validation passed. -/
theorem deposit_ok_inversion (req : DepositReq) (userId txId : String)
    (now : Nat) (f : Fault) (s : Store) (tid : String) (nb : ℚ)
    (hok : (deposit req userId txId now f s).2 = .ok tid nb) :
    ∃ aid a acct, req.accountId = some aid ∧ aid ≠ "" ∧
      req.amount = .num a ∧ 0 < a ∧
      s.accounts.find? (fun x => x.id == aid) = some acct ∧
      acct.user_id = userId ∧
      deposit req userId txId now f s =
        (committedStore s aid a txId now req.reference acct,
         .ok txId (acct.balance + a)) := by
  obtain ⟨accId, amt, ref⟩ := req
  cases accId with
  | none => simp [deposit] at hok
  | some aid =>
    by_cases hne : aid = ""
    · simp [deposit, hne] at hok
    · cases amt with
      | num a =>
        by_cases hle : a ≤ 0
        · simp [deposit, hne, hle] at hok
        · cases hfind : s.accounts.find? (fun x => x.id == aid) with
          | none => simp [deposit, hne, hle, hfind] at hok
          | some acct =>
            by_cases hu : acct.user_id ≠ userId
            · simp [deposit, hne, hle, hfind, hu] at hok
            · by_cases hg1 : f = .atInsert ∨
                  txId ∈ s.transactions.map (fun t => t.id) ∨
                  ¬ (0 < round2 a ∧ round2 a ≤ maxNumeric)
              · exfalso
                have : (deposit ⟨some aid, .num a, ref⟩ userId txId now f s).2 =
                    depositInternalErr := by
                  simp only [deposit]
                  rw [if_neg hne, if_neg hle, hfind]
                  simp only [if_neg hu]
                  rw [if_pos hg1]
                rw [this] at hok
                simp [depositInternalErr] at hok
              · by_cases hg2 : f = .atUpdate ∨
                    ¬ (0 ≤ round2 (acct.balance + a) ∧
                       round2 (acct.balance + a) ≤ maxNumeric)
                · exfalso
                  have : (deposit ⟨some aid, .num a, ref⟩ userId txId now f s).2 =
                      depositInternalErr := by
                    simp only [deposit]
                    rw [if_neg hne, if_neg hle, hfind]
                    simp only [if_neg hu]
                    rw [if_neg hg1, if_pos hg2]
                  rw [this] at hok
                  simp [depositInternalErr] at hok
                · refine ⟨aid, a, acct, rfl, hne, rfl, not_le.1 hle, hfind,
                    not_not.1 hu, ?_⟩
                  simp only [deposit]
                  rw [if_neg hne, if_neg hle, hfind]
                  simp only [if_neg hu]
                  rw [if_neg hg1, if_neg hg2]
      | str v => simp [deposit, hne] at hok
      | boolv v => simp [deposit, hne] at hok
      | nullv => simp [deposit, hne] at hok
      | undef => simp [deposit, hne] at hok

theorem find?_balance_update (l : List Account) (aid : String) (nb : ℚ)
    (acct : Account)
    (h : l.find? (fun x => x.id == aid) = some acct) :
    (l.map (fun x => if x.id = aid then { x with balance := nb } else x)).find?
        (fun x => x.id == aid) = some { acct with balance := nb } := by
  induction l with
  | nil => simp at h
  | cons y ys ih =>
    rw [List.map_cons]
    by_cases hy : y.id = aid
    · have hb : (y.id == aid) = true := by simpa using hy
      rw [List.find?_cons, hb] at h
      have hacct : y = acct := by simpa using h
      subst hacct
      rw [if_pos hy, List.find?_cons]
      simp [hb]
    · have hb : (y.id == aid) = false := by simpa using hy
      rw [List.find?_cons, hb] at h
      rw [if_neg hy, List.find?_cons]
      simp only [hb]
      exact ih h

theorem map_balance_update_twice (l : List Account) (aid : String)
    (nb₁ nb₂ : ℚ) :
    ((l.map (fun x => if x.id = aid then { x with balance := nb₁ } else x)).map
        (fun x => if x.id = aid then { x with balance := nb₂ } else x)) =
      l.map (fun x => if x.id = aid then { x with balance := nb₂ } else x) := by
  rw [List.map_map]
  apply List.map_congr_left
  intro x _
  by_cases h : x.id = aid <;> simp [Function.comp, h]

theorem listRel_error (req : ListReq) (userId : String) (s : Store)
    (st : Nat) (e : ErrorBody)
    (h : listValidate req userId s = .error (st, e)) :
    ∀ out, listTransactionsRel req userId s out ↔ out = .err st e := by
  intro out
  unfold listTransactionsRel
  rw [h]

theorem sorted_strict_of_nodup (l : List Tx) (hs : l.Sorted createdDesc)
    (hnd : (l.map (fun t => t.created_at)).Nodup) :
    l.Pairwise (fun x y => y.created_at < x.created_at) := by
  have hne : l.Pairwise (fun x y => x.created_at ≠ y.created_at) :=
    List.pairwise_map.mp hnd
  exact (hs.and hne).imp (fun h => lt_of_le_of_ne h.1 h.2.symm)

/-- C1: a deposit call that passes validation is all-or-nothing: the result
is either the fully committed store (ledger entry appended and balance
updated together, `committedStore`) with the 201 response, or the unchanged
store with the 500 INTERNAL_ERROR response — no intermediate state, for
every injected fault. -/
theorem claim_c1_deposit_atomic (req : DepositReq) (userId txId : String)
    (now : Nat) (f : Fault) (s : Store) (aid : String) (a : ℚ) (acct : Account)
    (haid : req.accountId = some aid) (hne : aid ≠ "")
    (hamt : req.amount = .num a) (hpos : 0 < a)
    (hfind : s.accounts.find? (fun x => x.id == aid) = some acct)
    (hown : acct.user_id = userId) :
    deposit req userId txId now f s =
        (committedStore s aid a txId now req.reference acct,
         .ok txId (acct.balance + a)) ∨
      deposit req userId txId now f s = (s, depositInternalErr) := by
  obtain ⟨accId, amt, ref⟩ := req
  simp only at haid hamt
  subst haid; subst hamt
  simp only [deposit]
  rw [if_neg hne, if_neg (not_le.2 hpos), hfind]
  simp only [if_neg (not_not_intro hown)]
  by_cases hg1 : f = .atInsert ∨ txId ∈ s.transactions.map (fun t => t.id) ∨
      ¬ (0 < round2 a ∧ round2 a ≤ maxNumeric)
  · rw [if_pos hg1]; right; rfl
  · rw [if_neg hg1]
    by_cases hg2 : f = .atUpdate ∨
        ¬ (0 ≤ round2 (acct.balance + a) ∧ round2 (acct.balance + a) ≤ maxNumeric)
    · rw [if_pos hg2]; right; rfl
    · rw [if_neg hg2]; left; rfl

/-- Witness for C1 at a concrete input: account `a1` of user `u` with
balance 5; with no fault injected the call lands in the committed branch. -/
theorem claim_c1_deposit_atomic_witness :
    deposit ⟨some "a1", .num 100, some "ref"⟩ "u" "t1" 7 .noFault
        ⟨[⟨"a1", "u", "EUR", 5, 0⟩], []⟩ =
        (committedStore ⟨[⟨"a1", "u", "EUR", 5, 0⟩], []⟩ "a1" 100 "t1" 7
          (some "ref") ⟨"a1", "u", "EUR", 5, 0⟩,
         .ok "t1" (5 + 100)) ∨
      deposit ⟨some "a1", .num 100, some "ref"⟩ "u" "t1" 7 .noFault
        ⟨[⟨"a1", "u", "EUR", 5, 0⟩], []⟩ = (⟨[⟨"a1", "u", "EUR", 5, 0⟩], []⟩, depositInternalErr) :=
  claim_c1_deposit_atomic ⟨some "a1", .num 100, some "ref"⟩ "u" "t1" 7 .noFault
    ⟨[⟨"a1", "u", "EUR", 5, 0⟩], []⟩ "a1" 100 ⟨"a1", "u", "EUR", 5, 0⟩
    rfl (by decide) rfl (by norm_num) (by decide) rfl

/-- C2: starting from any well-formed store, any sequence of account
creations and deposit calls preserves the schema invariant; in particular
every account's balance equals the sum of its ledger entries' amounts and is
non-negative. -/
theorem claim_c2_balance_invariant (s : Store) (ops : List Op)
    (h : StoreInv s) :
    StoreInv (applyOps s ops) ∧
    ∀ a ∈ (applyOps s ops).accounts,
      a.balance = txSum (applyOps s ops) a.id ∧ 0 ≤ a.balance := by
  have hinv := storeInv_applyOps s ops h
  exact ⟨hinv, fun a ha => ⟨(hinv.1 a ha).1, (hinv.1 a ha).2.1⟩⟩

/-- Witness for C2: the empty store is well formed; create an account and
deposit into it twice. -/
theorem claim_c2_balance_invariant_witness :
    StoreInv ⟨[], []⟩ ∧
    (StoreInv (applyOps ⟨[], []⟩
        [.create (some "EUR") "u" "a1" 0,
         .dep ⟨some "a1", .num 100, some "first"⟩ "u" "t1" 1 .noFault,
         .dep ⟨some "a1", .num 50, some "second"⟩ "u" "t2" 2 .noFault]) ∧
      ∀ a ∈ (applyOps ⟨[], []⟩
        [.create (some "EUR") "u" "a1" 0,
         .dep ⟨some "a1", .num 100, some "first"⟩ "u" "t1" 1 .noFault,
         .dep ⟨some "a1", .num 50, some "second"⟩ "u" "t2" 2 .noFault]).accounts,
        a.balance = txSum (applyOps ⟨[], []⟩
          [.create (some "EUR") "u" "a1" 0,
           .dep ⟨some "a1", .num 100, some "first"⟩ "u" "t1" 1 .noFault,
           .dep ⟨some "a1", .num 50, some "second"⟩ "u" "t2" 2 .noFault]) a.id ∧
          0 ≤ a.balance) :=
  ⟨by decide, claim_c2_balance_invariant ⟨[], []⟩ _ (by decide)⟩

/-- C9 (implicit): a deposit request with a missing or empty `accountId`
fails with ValidationError "accountId is required" for every store, every
amount (however invalid) and every fault — the store is untouched and the
response does not depend on it, so the check runs before the amount checks
and before any store access. -/
theorem claim_c9_deposit_accountId_first (req : DepositReq)
    (userId txId : String) (now : Nat) (f : Fault)
    (h : req.accountId = none ∨ req.accountId = some "") :
    ∀ s, deposit req userId txId now f s =
      (s, .err 400 ⟨.VALIDATION_ERROR, "accountId is required"⟩) := by
  intro s
  obtain ⟨accId, amt, ref⟩ := req
  rcases h with h | h <;> simp only at h <;> subst h <;> simp [deposit]

/-- Witness for C9: empty accountId together with an invalid amount still
reports the accountId error. -/
theorem claim_c9_deposit_accountId_first_witness :
    deposit ⟨some "", .str "abc", none⟩ "u" "t" 0 .noFault ⟨[], []⟩ =
      (⟨[], []⟩, .err 400 ⟨.VALIDATION_ERROR, "accountId is required"⟩) :=
  claim_c9_deposit_accountId_first ⟨some "", .str "abc", none⟩ "u" "t" 0
    .noFault (Or.inr rfl) ⟨[], []⟩

/-- C5: with `accountId` present, the deposit preconditions are checked in
order with first failure winning: non-numeric amount → "amount must be a
number" (for every non-numeric value, so the type check precedes the
positivity check); amount ≤ 0 → "amount must be greater than 0"; unknown
account → NOT_FOUND; foreign account → FORBIDDEN. -/
theorem claim_c5_deposit_validation_order (userId txId : String) (now : Nat)
    (f : Fault) (aid : String) (ref : Option String) (hne : aid ≠ "") :
    (∀ v s, (∀ q, v ≠ JsVal.num q) →
        deposit ⟨some aid, v, ref⟩ userId txId now f s =
          (s, .err 400 ⟨.VALIDATION_ERROR, "amount must be a number"⟩)) ∧
    (∀ a s, a ≤ 0 →
        deposit ⟨some aid, .num a, ref⟩ userId txId now f s =
          (s, .err 400 ⟨.VALIDATION_ERROR, "amount must be greater than 0"⟩)) ∧
    (∀ a s, 0 < a → s.accounts.find? (fun x => x.id == aid) = none →
        deposit ⟨some aid, .num a, ref⟩ userId txId now f s =
          (s, .err 404 ⟨.NOT_FOUND, "Account not found"⟩)) ∧
    (∀ a s acct, 0 < a → s.accounts.find? (fun x => x.id == aid) = some acct →
        acct.user_id ≠ userId →
        deposit ⟨some aid, .num a, ref⟩ userId txId now f s =
          (s, .err 403 ⟨.FORBIDDEN, "You do not have access to this account"⟩)) := by
  refine ⟨?_, ?_, ?_, ?_⟩
  · intro v s hv
    cases v with
    | num q => exact absurd rfl (hv q)
    | str w => simp only [deposit]; rw [if_neg hne]
    | boolv b => simp only [deposit]; rw [if_neg hne]
    | nullv => simp only [deposit]; rw [if_neg hne]
    | undef => simp only [deposit]; rw [if_neg hne]
  · intro a s hle
    simp only [deposit]
    rw [if_neg hne, if_pos hle]
  · intro a s hpos hfind
    simp only [deposit]
    rw [if_neg hne, if_neg (not_le.2 hpos), hfind]
  · intro a s acct hpos hfind hu
    simp only [deposit]
    rw [if_neg hne, if_neg (not_le.2 hpos), hfind]
    simp only [if_pos hu]

/-- C10 (implicit frame property): a deposit that answered 201 appended
exactly one ledger entry, owned by the target account; every account keeps
its id, owner, currency and creation timestamp; every account other than the
target is left entirely unchanged; every pre-existing ledger entry is left
in place unchanged. -/
theorem claim_c10_deposit_frame (req : DepositReq) (userId txId : String)
    (now : Nat) (f : Fault) (s : Store) (tid : String) (nb : ℚ)
    (hok : (deposit req userId txId now f s).2 = .ok tid nb) :
    ∃ aid a acct, req.accountId = some aid ∧ req.amount = .num a ∧
      s.accounts.find? (fun x => x.id == aid) = some acct ∧
      (deposit req userId txId now f s).1.accounts =
        s.accounts.map (fun x => if x.id = aid then
          { x with balance := round2 (acct.balance + a) } else x) ∧
      ((deposit req userId txId now f s).1.accounts.map
          (fun x => (x.id, x.user_id, x.currency, x.created_at)) =
        s.accounts.map (fun x => (x.id, x.user_id, x.currency, x.created_at))) ∧
      (∀ x ∈ s.accounts, x.id ≠ aid →
        x ∈ (deposit req userId txId now f s).1.accounts) ∧
      (deposit req userId txId now f s).1.transactions =
        s.transactions ++ [depEntry aid a txId now req.reference] := by
  obtain ⟨aid, a, acct, haid, hne, hamt, hpos, hfind, hown, heq⟩ :=
    deposit_ok_inversion req userId txId now f s tid nb hok
  refine ⟨aid, a, acct, haid, hamt, hfind, ?_, ?_, ?_, ?_⟩
  · rw [heq]; rfl
  · rw [heq]
    show (List.map _ (s.accounts.map _)) = _
    rw [List.map_map]
    apply List.map_congr_left
    intro x _
    by_cases h : x.id = aid <;> simp [Function.comp, h]
  · intro x hx hxne
    rw [heq]
    have hmm : (if x.id = aid then
          { x with balance := round2 (acct.balance + a) } else x) ∈
        (committedStore s aid a txId now req.reference acct).accounts :=
      List.mem_map_of_mem _ hx
    rwa [if_neg hxne] at hmm
  · rw [heq]; rfl

/-- Witness for C10: a concrete successful deposit. -/
theorem claim_c10_deposit_frame_witness :
    ∃ aid a acct,
      (⟨some "a1", JsVal.num 100, none⟩ : DepositReq).accountId = some aid ∧
      (⟨some "a1", JsVal.num 100, none⟩ : DepositReq).amount = .num a ∧
      (⟨[⟨"a1", "u", "EUR", 5, 0⟩, ⟨"a2", "v", "USD", 3, 0⟩], []⟩ : Store).accounts.find?
        (fun x => x.id == aid) = some acct ∧
      (deposit ⟨some "a1", .num 100, none⟩ "u" "t1" 7 .noFault
        ⟨[⟨"a1", "u", "EUR", 5, 0⟩, ⟨"a2", "v", "USD", 3, 0⟩], []⟩).1.accounts =
        (⟨[⟨"a1", "u", "EUR", 5, 0⟩, ⟨"a2", "v", "USD", 3, 0⟩], []⟩ : Store).accounts.map
          (fun x => if x.id = aid then
            { x with balance := round2 (acct.balance + a) } else x) ∧
      ((deposit ⟨some "a1", .num 100, none⟩ "u" "t1" 7 .noFault
        ⟨[⟨"a1", "u", "EUR", 5, 0⟩, ⟨"a2", "v", "USD", 3, 0⟩], []⟩).1.accounts.map
          (fun x => (x.id, x.user_id, x.currency, x.created_at)) =
        (⟨[⟨"a1", "u", "EUR", 5, 0⟩, ⟨"a2", "v", "USD", 3, 0⟩], []⟩ : Store).accounts.map
          (fun x => (x.id, x.user_id, x.currency, x.created_at))) ∧
      (∀ x ∈ (⟨[⟨"a1", "u", "EUR", 5, 0⟩, ⟨"a2", "v", "USD", 3, 0⟩], []⟩ : Store).accounts,
        x.id ≠ aid →
        x ∈ (deposit ⟨some "a1", .num 100, none⟩ "u" "t1" 7 .noFault
          ⟨[⟨"a1", "u", "EUR", 5, 0⟩, ⟨"a2", "v", "USD", 3, 0⟩], []⟩).1.accounts) ∧
      (deposit ⟨some "a1", .num 100, none⟩ "u" "t1" 7 .noFault
        ⟨[⟨"a1", "u", "EUR", 5, 0⟩, ⟨"a2", "v", "USD", 3, 0⟩], []⟩).1.transactions =
        (⟨[⟨"a1", "u", "EUR", 5, 0⟩, ⟨"a2", "v", "USD", 3, 0⟩], []⟩ : Store).transactions ++
          [depEntry aid 100 "t1" 7 none] := by
  have hc := deposit_commits "a1" "u" "t1" 7 none 100
    ⟨[⟨"a1", "u", "EUR", 5, 0⟩, ⟨"a2", "v", "USD", 3, 0⟩], []⟩
    ⟨"a1", "u", "EUR", 5, 0⟩
    (by decide) (by decide) (by decide) rfl (by simp)
    (by show (0:ℚ) < round2 100; norm_num [round2, round_eq])
    (by show round2 (100:ℚ) ≤ maxNumeric; norm_num [round2, round_eq, maxNumeric])
    (by show (0:ℚ) ≤ round2 (5 + 100); norm_num [round2, round_eq])
    (by show round2 ((5:ℚ) + 100) ≤ maxNumeric
        norm_num [round2, round_eq, maxNumeric])
  have h := claim_c10_deposit_frame ⟨some "a1", .num 100, none⟩ "u" "t1" 7
    .noFault ⟨[⟨"a1", "u", "EUR", 5, 0⟩, ⟨"a2", "v", "USD", 3, 0⟩], []⟩
    "t1" (5 + 100) (by rw [hc])
  obtain ⟨aid, a, acct, h1, h2, h3, h4, h5, h6, h7⟩ := h
  have haeq : a = 100 := by
    have := h2
    simp at this
    exact this.symm
  subst haeq
  exact ⟨aid, 100, acct, h1, h2, h3, h4, h5, h6, h7⟩

/-- C8: deposits are not idempotent: two calls with identical arguments
against an account with balance `b` and no storage fault append two ledger
entries with distinct ids (both of amount `a`) and leave the balance at
exactly `b + 2 * a`. -/
theorem claim_c8_deposit_not_idempotent
    (aid userId txId₁ txId₂ : String) (now₁ now₂ : Nat) (ref : Option String)
    (a : ℚ) (s : Store) (acct : Account)
    (hne : aid ≠ "") (ha : 0 < a) (hg : grid a)
    (hfind : s.accounts.find? (fun x => x.id == aid) = some acct)
    (hown : acct.user_id = userId)
    (hgb : grid acct.balance) (hb0 : 0 ≤ acct.balance)
    (ht1 : txId₁ ∉ s.transactions.map (fun t => t.id))
    (ht2 : txId₂ ∉ s.transactions.map (fun t => t.id))
    (h12 : txId₁ ≠ txId₂)
    (hfit : acct.balance + 2 * a ≤ maxNumeric) :
    deposit ⟨some aid, .num a, ref⟩ userId txId₂ now₂ .noFault
        ((deposit ⟨some aid, .num a, ref⟩ userId txId₁ now₁ .noFault s).1) =
      (⟨s.accounts.map (fun x => if x.id = aid then
          { x with balance := acct.balance + 2 * a } else x),
        s.transactions ++
          [depEntry aid a txId₁ now₁ ref, depEntry aid a txId₂ now₂ ref]⟩,
       .ok txId₂ (acct.balance + 2 * a)) ∧
    (depEntry aid a txId₁ now₁ ref).id ≠ (depEntry aid a txId₂ now₂ ref).id ∧
    (depEntry aid a txId₁ now₁ ref).amount = a := by
  have hra : round2 a = a := round2_eq_self hg
  have hgr1 : grid (acct.balance + a) := grid_add hgb hg
  have hr1 : round2 (acct.balance + a) = acct.balance + a := round2_eq_self hgr1
  have hgr2 : grid (acct.balance + a + a) := grid_add hgr1 hg
  have hr2 : round2 (acct.balance + a + a) = acct.balance + a + a :=
    round2_eq_self hgr2
  have hamax : a ≤ maxNumeric := by linarith
  have h1max : acct.balance + a ≤ maxNumeric := by linarith
  have hc1 := deposit_commits aid userId txId₁ now₁ ref a s acct hne ha hfind
    hown ht1 (by rw [hra]; exact ha) (by rw [hra]; exact hamax)
    (by rw [hr1]; linarith) (by rw [hr1]; exact h1max)
  have hfind₂ : (committedStore s aid a txId₁ now₁ ref acct).accounts.find?
      (fun x => x.id == aid) =
      some { acct with balance := round2 (acct.balance + a) } :=
    find?_balance_update s.accounts aid _ acct hfind
  have ht2' : txId₂ ∉ (committedStore s aid a txId₁ now₁ ref acct).transactions.map
      (fun t => t.id) := by
    show txId₂ ∉ (s.transactions ++ [depEntry aid a txId₁ now₁ ref]).map
      (fun t => t.id)
    rw [List.map_append]
    simp only [List.mem_append, not_or]
    exact ⟨ht2, by simp [depEntry, Ne.symm h12]⟩
  have hBal2 : round2 (({ acct with balance := round2 (acct.balance + a) } :
      Account).balance + a) = acct.balance + 2 * a := by
    show round2 (round2 (acct.balance + a) + a) = _
    rw [hr1, hr2]
    ring
  have hc2 := deposit_commits aid userId txId₂ now₂ ref a
    (committedStore s aid a txId₁ now₁ ref acct)
    { acct with balance := round2 (acct.balance + a) } hne ha hfind₂ hown ht2'
    (by rw [hra]; exact ha) (by rw [hra]; exact hamax)
    (by rw [hBal2]; linarith) (by rw [hBal2]; linarith)
  have hstep : (deposit ⟨some aid, .num a, ref⟩ userId txId₁ now₁ .noFault s).1 =
      committedStore s aid a txId₁ now₁ ref acct := by rw [hc1]
  refine ⟨?_, by simpa [depEntry] using h12, by simp [depEntry, hra]⟩
  rw [hstep, hc2]
  have hacc : (committedStore (committedStore s aid a txId₁ now₁ ref acct)
      aid a txId₂ now₂ ref
      { acct with balance := round2 (acct.balance + a) }).accounts =
      s.accounts.map (fun x => if x.id = aid then
        { x with balance := acct.balance + 2 * a } else x) := by
    show ((s.accounts.map _).map _) = _
    rw [map_balance_update_twice]
    simp only [hBal2]
  have htx2 : (committedStore (committedStore s aid a txId₁ now₁ ref acct)
      aid a txId₂ now₂ ref
      { acct with balance := round2 (acct.balance + a) }).transactions =
      s.transactions ++
        [depEntry aid a txId₁ now₁ ref, depEntry aid a txId₂ now₂ ref] := by
    show (s.transactions ++ [depEntry aid a txId₁ now₁ ref]) ++
        [depEntry aid a txId₂ now₂ ref] = _
    rw [List.append_assoc]
    rfl
  have hresp : (DepResult.ok txId₂
      (({ acct with balance := round2 (acct.balance + a) } : Account).balance + a)) =
      .ok txId₂ (acct.balance + 2 * a) := by
    show DepResult.ok txId₂ (round2 (acct.balance + a) + a) = _
    rw [hr1]
    congr 1
    ring
  rw [Prod.mk.injEq]
  constructor
  · show (⟨_, _⟩ : Store) = ⟨_, _⟩
    rw [Store.mk.injEq]
    exact ⟨hacc, htx2⟩
  · exact hresp

/-- Witness for C8: depositing 100 twice into an account with balance 5. -/
theorem claim_c8_deposit_not_idempotent_witness :
    deposit ⟨some "a1", .num 100, none⟩ "u" "t2" 2 .noFault
        ((deposit ⟨some "a1", .num 100, none⟩ "u" "t1" 1 .noFault
          ⟨[⟨"a1", "u", "EUR", 5, 0⟩], []⟩).1) =
      (⟨[⟨"a1", "u", "EUR", 5, 0⟩].map (fun x => if x.id = "a1" then
          { x with balance := (5 : ℚ) + 2 * 100 } else x),
        ([] : List Tx) ++
          [depEntry "a1" 100 "t1" 1 none, depEntry "a1" 100 "t2" 2 none]⟩,
       .ok "t2" ((5 : ℚ) + 2 * 100)) ∧
    (depEntry "a1" 100 "t1" 1 none).id ≠ (depEntry "a1" 100 "t2" 2 none).id ∧
    (depEntry "a1" 100 "t1" 1 none).amount = 100 :=
  claim_c8_deposit_not_idempotent "a1" "u" "t1" "t2" 1 2 none 100
    ⟨[⟨"a1", "u", "EUR", 5, 0⟩], []⟩ ⟨"a1", "u", "EUR", 5, 0⟩
    (by decide) (by decide) (by unfold grid; norm_num) (by decide) rfl
    (by unfold grid; norm_num) (by decide) (by simp) (by simp) (by decide)
    (by show (5:ℚ) + 2 * 100 ≤ maxNumeric; norm_num [maxNumeric])

/-- Witness for C5: the spec's own test vectors — amount "abc", 0 and -5,
an unknown account, and an account owned by another user. -/
theorem claim_c5_deposit_validation_order_witness :
    deposit ⟨some "a1", .str "abc", none⟩ "u" "t" 0 .noFault ⟨[], []⟩ =
        (⟨[], []⟩, .err 400 ⟨.VALIDATION_ERROR, "amount must be a number"⟩) ∧
    deposit ⟨some "a1", .num 0, none⟩ "u" "t" 0 .noFault ⟨[], []⟩ =
        (⟨[], []⟩, .err 400 ⟨.VALIDATION_ERROR, "amount must be greater than 0"⟩) ∧
    deposit ⟨some "a1", .num (-5), none⟩ "u" "t" 0 .noFault ⟨[], []⟩ =
        (⟨[], []⟩, .err 400 ⟨.VALIDATION_ERROR, "amount must be greater than 0"⟩) ∧
    deposit ⟨some "a1", .num 100, none⟩ "u" "t" 0 .noFault ⟨[], []⟩ =
        (⟨[], []⟩, .err 404 ⟨.NOT_FOUND, "Account not found"⟩) ∧
    deposit ⟨some "a1", .num 100, none⟩ "u" "t" 0 .noFault
        ⟨[⟨"a1", "other", "EUR", 0, 0⟩], []⟩ =
        (⟨[⟨"a1", "other", "EUR", 0, 0⟩], []⟩,
         .err 403 ⟨.FORBIDDEN, "You do not have access to this account"⟩) := by
  have h := claim_c5_deposit_validation_order "u" "t" 0 .noFault "a1" none
    (by decide)
  exact ⟨h.1 (.str "abc") ⟨[], []⟩ (fun q => by simp),
    h.2.1 0 ⟨[], []⟩ (by norm_num),
    h.2.1 (-5) ⟨[], []⟩ (by norm_num),
    h.2.2.1 100 ⟨[], []⟩ (by norm_num) (by decide),
    h.2.2.2 100 ⟨[⟨"a1", "other", "EUR", 0, 0⟩], []⟩ ⟨"a1", "other", "EUR", 0, 0⟩
      (by norm_num) (by decide) (by decide)⟩

/-- C7: GET /transactions validates in order before producing any result:
missing accountId → "accountId is required"; page not parsing as an integer
≥ 1 → "page must be a positive integer"; limit not parsing as an integer
≥ 1 → "limit must be a positive integer"; limit above 100 → "limit cannot
exceed 100"; unknown account → NOT_FOUND; foreign account → FORBIDDEN.
Each error determines the response completely. -/
theorem claim_c7_list_validation_order (userId : String) :
    (∀ req s, (req.accountId = none ∨ req.accountId = some "") →
      ∀ out, (listTransactionsRel req userId s out ↔
        out = .err 400 ⟨.VALIDATION_ERROR, "accountId is required"⟩)) ∧
    (∀ req s aid, req.accountId = some aid → aid ≠ "" →
      (parseIntJS (pageStr req) = none ∨
        ∃ p, parseIntJS (pageStr req) = some p ∧ p < 1) →
      ∀ out, (listTransactionsRel req userId s out ↔
        out = .err 400 ⟨.VALIDATION_ERROR, "page must be a positive integer"⟩)) ∧
    (∀ req s aid p, req.accountId = some aid → aid ≠ "" →
      parseIntJS (pageStr req) = some p → 1 ≤ p →
      (parseIntJS (limitStr req) = none ∨
        ∃ l, parseIntJS (limitStr req) = some l ∧ l < 1) →
      ∀ out, (listTransactionsRel req userId s out ↔
        out = .err 400 ⟨.VALIDATION_ERROR, "limit must be a positive integer"⟩)) ∧
    (∀ req s aid p l, req.accountId = some aid → aid ≠ "" →
      parseIntJS (pageStr req) = some p → 1 ≤ p →
      parseIntJS (limitStr req) = some l → 1 ≤ l → 100 < l →
      ∀ out, (listTransactionsRel req userId s out ↔
        out = .err 400 ⟨.VALIDATION_ERROR, "limit cannot exceed 100"⟩)) ∧
    (∀ req s aid p l, req.accountId = some aid → aid ≠ "" →
      parseIntJS (pageStr req) = some p → 1 ≤ p →
      parseIntJS (limitStr req) = some l → 1 ≤ l → l ≤ 100 →
      s.accounts.find? (fun x => x.id == aid) = none →
      ∀ out, (listTransactionsRel req userId s out ↔
        out = .err 404 ⟨.NOT_FOUND, "Account not found"⟩)) ∧
    (∀ req s aid p l acct, req.accountId = some aid → aid ≠ "" →
      parseIntJS (pageStr req) = some p → 1 ≤ p →
      parseIntJS (limitStr req) = some l → 1 ≤ l → l ≤ 100 →
      s.accounts.find? (fun x => x.id == aid) = some acct →
      acct.user_id ≠ userId →
      ∀ out, (listTransactionsRel req userId s out ↔
        out = .err 403 ⟨.FORBIDDEN, "You do not have access to this account"⟩)) := by
  refine ⟨?_, ?_, ?_, ?_, ?_, ?_⟩
  · intro req s h out
    apply listRel_error
    rcases h with h | h <;> simp [listValidate, h]
  · intro req s aid haid hne hp out
    apply listRel_error
    rcases hp with hp | ⟨p, hp, hlt⟩ <;> simp [listValidate, haid, hne, hp, *]
  · intro req s aid p haid hne hp hge hl out
    apply listRel_error
    rcases hl with hl | ⟨l, hl, hlt⟩ <;>
      simp [listValidate, haid, hne, hp, hl, not_lt.2 hge, *]
  · intro req s aid p l haid hne hp hge hl hlge hgt out
    apply listRel_error
    simp [listValidate, haid, hne, hp, hl, not_lt.2 hge, not_lt.2 hlge, hgt]
  · intro req s aid p l haid hne hp hge hl hlge hle hfind out
    apply listRel_error
    simp [listValidate, haid, hne, hp, hl, not_lt.2 hge, not_lt.2 hlge,
      not_lt.2 hle, hfind]
  · intro req s aid p l acct haid hne hp hge hl hlge hle hfind hu out
    apply listRel_error
    simp [listValidate, haid, hne, hp, hl, not_lt.2 hge, not_lt.2 hlge,
      not_lt.2 hle, hfind, hu]

/-- Witness for C7: each validation failure at a concrete request. -/
theorem claim_c7_list_validation_order_witness :
    listTransactionsRel ⟨none, none, none⟩ "u" ⟨[], []⟩
      (.err 400 ⟨.VALIDATION_ERROR, "accountId is required"⟩) ∧
    listTransactionsRel ⟨some "a1", some "abc", none⟩ "u" ⟨[], []⟩
      (.err 400 ⟨.VALIDATION_ERROR, "page must be a positive integer"⟩) ∧
    listTransactionsRel ⟨some "a1", some "2", some "0"⟩ "u" ⟨[], []⟩
      (.err 400 ⟨.VALIDATION_ERROR, "limit must be a positive integer"⟩) ∧
    listTransactionsRel ⟨some "a1", some "2", some "101"⟩ "u" ⟨[], []⟩
      (.err 400 ⟨.VALIDATION_ERROR, "limit cannot exceed 100"⟩) ∧
    listTransactionsRel ⟨some "a1", none, none⟩ "u" ⟨[], []⟩
      (.err 404 ⟨.NOT_FOUND, "Account not found"⟩) ∧
    listTransactionsRel ⟨some "a1", none, none⟩ "u"
      ⟨[⟨"a1", "other", "EUR", 0, 0⟩], []⟩
      (.err 403 ⟨.FORBIDDEN, "You do not have access to this account"⟩) := by
  have h := claim_c7_list_validation_order "u"
  refine ⟨?_, ?_, ?_, ?_, ?_, ?_⟩
  · exact (h.1 ⟨none, none, none⟩ ⟨[], []⟩ (Or.inl rfl) _).mpr rfl
  · exact (h.2.1 ⟨some "a1", some "abc", none⟩ ⟨[], []⟩ "a1" rfl (by decide)
      (Or.inl (by decide)) _).mpr rfl
  · exact (h.2.2.1 ⟨some "a1", some "2", some "0"⟩ ⟨[], []⟩ "a1" 2 rfl
      (by decide) (by decide) (by decide)
      (Or.inr ⟨0, by decide, by decide⟩) _).mpr rfl
  · exact (h.2.2.2.1 ⟨some "a1", some "2", some "101"⟩ ⟨[], []⟩ "a1" 2 101 rfl
      (by decide) (by decide) (by decide) (by decide) (by decide) (by decide)
      _).mpr rfl
  · exact (h.2.2.2.2.1 ⟨some "a1", none, none⟩ ⟨[], []⟩ "a1" 1 20 rfl
      (by decide) (by decide) (by decide) (by decide) (by decide) (by decide)
      (by decide) _).mpr rfl
  · exact (h.2.2.2.2.2 ⟨some "a1", none, none⟩ ⟨[⟨"a1", "other", "EUR", 0, 0⟩], []⟩
      "a1" 1 20 ⟨"a1", "other", "EUR", 0, 0⟩ rfl (by decide) (by decide)
      (by decide) (by decide) (by decide) (by decide) (by decide) (by decide)
      _).mpr rfl

/-- C6: on a valid listing call with page `p` and limit `l`, every possible
response is the window of at most `l` entries at offset `(p-1)*l` of a
timestamp-sorted ordering of the account's entries; a page past the final
page yields an empty item list (not an error); and the response echoes `p`,
`l` and the total entry count regardless of the window. -/
theorem claim_c6_list_pagination (req : ListReq) (userId : String) (s : Store)
    (acct : Account) (p l : Int) (out : ListOut)
    (hv : listValidate req userId s = .ok (acct, p, l))
    (hout : listTransactionsRel req userId s out) :
    ∃ (items : List Tx) (ordered : List Tx),
      out = .ok items p l (txsOf s acct.id).length ∧
      ordered.Perm (txsOf s acct.id) ∧ ordered.Sorted createdDesc ∧
      items = (ordered.drop ((p - 1) * l).toNat).take l.toNat ∧
      items.length ≤ l.toNat ∧
      ((txsOf s acct.id).length ≤ ((p - 1) * l).toNat → items = []) := by
  unfold listTransactionsRel at hout
  rw [hv] at hout
  obtain ⟨ordered, hperm, hsort, rfl⟩ := hout
  refine ⟨_, ordered, rfl, hperm, hsort, rfl, ?_, ?_⟩
  · rw [List.length_take]
    exact min_le_left _ _
  · intro hlen
    have hlen' : ordered.length ≤ ((p - 1) * l).toNat := by
      rw [hperm.length_eq]; exact hlen
    rw [List.drop_eq_nil_of_le hlen']
    exact List.take_nil

/-- Witness for C6: two entries, page 2 with limit 1 returns the older
entry; the echoed page, limit and total are 2, 1 and 2. -/
theorem claim_c6_list_pagination_witness :
    ∃ (items : List Tx) (ordered : List Tx),
      (ListOut.ok [⟨"t1", "a1", "deposit", 3, none, 10⟩] 2 1 2 : ListOut) =
        .ok items 2 1
          (txsOf ⟨[⟨"a1", "u", "EUR", 7, 0⟩],
              [⟨"t1", "a1", "deposit", 3, none, 10⟩,
               ⟨"t2", "a1", "deposit", 4, none, 20⟩]⟩
            (⟨"a1", "u", "EUR", 7, 0⟩ : Account).id).length ∧
      ordered.Perm (txsOf ⟨[⟨"a1", "u", "EUR", 7, 0⟩],
              [⟨"t1", "a1", "deposit", 3, none, 10⟩,
               ⟨"t2", "a1", "deposit", 4, none, 20⟩]⟩
            (⟨"a1", "u", "EUR", 7, 0⟩ : Account).id) ∧
      ordered.Sorted createdDesc ∧
      items = (ordered.drop (((2 : Int) - 1) * 1).toNat).take (1 : Int).toNat ∧
      items.length ≤ (1 : Int).toNat ∧
      ((txsOf ⟨[⟨"a1", "u", "EUR", 7, 0⟩],
              [⟨"t1", "a1", "deposit", 3, none, 10⟩,
               ⟨"t2", "a1", "deposit", 4, none, 20⟩]⟩
            (⟨"a1", "u", "EUR", 7, 0⟩ : Account).id).length ≤
          (((2 : Int) - 1) * 1).toNat → items = []) := by
  have hout : listTransactionsRel ⟨some "a1", some "2", some "1"⟩ "u"
      ⟨[⟨"a1", "u", "EUR", 7, 0⟩],
        [⟨"t1", "a1", "deposit", 3, none, 10⟩,
         ⟨"t2", "a1", "deposit", 4, none, 20⟩]⟩
      (.ok [⟨"t1", "a1", "deposit", 3, none, 10⟩] 2 1 2) := by
    unfold listTransactionsRel
    rw [show listValidate ⟨some "a1", some "2", some "1"⟩ "u"
        ⟨[⟨"a1", "u", "EUR", 7, 0⟩],
          [⟨"t1", "a1", "deposit", 3, none, 10⟩,
           ⟨"t2", "a1", "deposit", 4, none, 20⟩]⟩ =
        .ok (⟨"a1", "u", "EUR", 7, 0⟩, 2, 1) from rfl]
    exact ⟨[⟨"t2", "a1", "deposit", 4, none, 20⟩,
            ⟨"t1", "a1", "deposit", 3, none, 10⟩],
      by decide, by decide, by decide⟩
  exact claim_c6_list_pagination ⟨some "a1", some "2", some "1"⟩ "u"
    ⟨[⟨"a1", "u", "EUR", 7, 0⟩],
      [⟨"t1", "a1", "deposit", 3, none, 10⟩,
       ⟨"t2", "a1", "deposit", 4, none, 20⟩]⟩
    ⟨"a1", "u", "EUR", 7, 0⟩ 2 1
    (.ok [⟨"t1", "a1", "deposit", 3, none, 10⟩] 2 1 2) rfl hout

/-- Counterexample for C4: two ledger entries with equal creation
timestamps.  Both orders of the pair are valid responses of the listing
query (ORDER BY created_at DESC fixes no order between them), so the
returned order is not deterministic across repeated calls, and in
particular no entry-id tie-break is enforced. -/
theorem claim_c4_tie_nondeterminism :
    listTransactionsRel ⟨some "a1", none, none⟩ "u"
      ⟨[⟨"a1", "u", "EUR", 7, 0⟩],
        [⟨"t1", "a1", "deposit", 3, none, 5⟩,
         ⟨"t2", "a1", "deposit", 4, none, 5⟩]⟩
      (.ok [⟨"t1", "a1", "deposit", 3, none, 5⟩,
            ⟨"t2", "a1", "deposit", 4, none, 5⟩] 1 20 2) ∧
    listTransactionsRel ⟨some "a1", none, none⟩ "u"
      ⟨[⟨"a1", "u", "EUR", 7, 0⟩],
        [⟨"t1", "a1", "deposit", 3, none, 5⟩,
         ⟨"t2", "a1", "deposit", 4, none, 5⟩]⟩
      (.ok [⟨"t2", "a1", "deposit", 4, none, 5⟩,
            ⟨"t1", "a1", "deposit", 3, none, 5⟩] 1 20 2) ∧
    (ListOut.ok [⟨"t1", "a1", "deposit", 3, none, 5⟩,
                 ⟨"t2", "a1", "deposit", 4, none, 5⟩] 1 20 2) ≠
      (ListOut.ok [⟨"t2", "a1", "deposit", 4, none, 5⟩,
                   ⟨"t1", "a1", "deposit", 3, none, 5⟩] 1 20 2) := by
  have hv : listValidate ⟨some "a1", none, none⟩ "u"
      ⟨[⟨"a1", "u", "EUR", 7, 0⟩],
        [⟨"t1", "a1", "deposit", 3, none, 5⟩,
         ⟨"t2", "a1", "deposit", 4, none, 5⟩]⟩ =
      .ok (⟨"a1", "u", "EUR", 7, 0⟩, 1, 20) := rfl
  refine ⟨?_, ?_, by decide⟩
  · unfold listTransactionsRel
    rw [hv]
    exact ⟨[⟨"t1", "a1", "deposit", 3, none, 5⟩,
            ⟨"t2", "a1", "deposit", 4, none, 5⟩], by decide, by decide, by decide⟩
  · unfold listTransactionsRel
    rw [hv]
    exact ⟨[⟨"t2", "a1", "deposit", 4, none, 5⟩,
            ⟨"t1", "a1", "deposit", 3, none, 5⟩], by decide, by decide, by decide⟩

/-- C4 amended: every response's item list is sorted by creation timestamp
descending, and when the account's entries carry pairwise distinct creation
timestamps the response is unique (deterministic across repeated calls);
the source provides no tie-break between equal timestamps (see the
counterexample). -/
theorem claim_c4_list_sorted_deterministic (userId : String) :
    (∀ req s (items : List Tx) (p l : Int) (total : Nat),
      listTransactionsRel req userId s (.ok items p l total) →
      items.Sorted createdDesc) ∧
    (∀ req s out₁ out₂,
      (∀ acct p l, listValidate req userId s = .ok (acct, p, l) →
        ((txsOf s acct.id).map (fun t => t.created_at)).Nodup) →
      listTransactionsRel req userId s out₁ →
      listTransactionsRel req userId s out₂ → out₁ = out₂) := by
  constructor
  · intro req s items p l total h
    unfold listTransactionsRel at h
    cases hv : listValidate req userId s with
    | error eb =>
      obtain ⟨st, e⟩ := eb
      rw [hv] at h
      simp at h
    | ok val =>
      obtain ⟨acct, p', l'⟩ := val
      rw [hv] at h
      obtain ⟨ordered, hperm, hsort, heq⟩ := h
      have hitems : items =
          (ordered.drop ((p' - 1) * l').toNat).take l'.toNat := by
        injection heq
      have hsub : List.Sublist
          ((ordered.drop ((p' - 1) * l').toNat).take l'.toNat) ordered :=
        (List.take_sublist _ _).trans (List.drop_sublist _ _)
      rw [hitems]
      exact List.Pairwise.sublist hsub hsort
  · intro req s out₁ out₂ hnd h₁ h₂
    unfold listTransactionsRel at h₁ h₂
    cases hv : listValidate req userId s with
    | error eb =>
      obtain ⟨st, e⟩ := eb
      rw [hv] at h₁ h₂
      rw [h₁, h₂]
    | ok val =>
      obtain ⟨acct, p, l⟩ := val
      rw [hv] at h₁ h₂
      obtain ⟨o₁, hp₁, hs₁, rfl⟩ := h₁
      obtain ⟨o₂, hp₂, hs₂, rfl⟩ := h₂
      have hndtx : ((txsOf s acct.id).map (fun t => t.created_at)).Nodup :=
        hnd acct p l hv
      have hnd₁ : (o₁.map (fun t => t.created_at)).Nodup :=
        ((hp₁.map (fun t => t.created_at)).nodup_iff).2 hndtx
      have hnd₂ : (o₂.map (fun t => t.created_at)).Nodup :=
        ((hp₂.map (fun t => t.created_at)).nodup_iff).2 hndtx
      have hst₁ := sorted_strict_of_nodup o₁ hs₁ hnd₁
      have hst₂ := sorted_strict_of_nodup o₂ hs₂ hnd₂
      haveI : IsAntisymm Tx (fun x y => y.created_at < x.created_at) :=
        ⟨fun a b h1 h2 => absurd h2 (lt_asymm h1)⟩
      have ho : o₁ = o₂ :=
        List.eq_of_perm_of_sorted (hp₁.trans hp₂.symm) hst₁ hst₂
      rw [ho]

/-- Witness for the amended C4: with distinct timestamps the returned order
is sorted and unique. -/
theorem claim_c4_list_sorted_deterministic_witness :
    ([⟨"t2", "a1", "deposit", 4, none, 20⟩,
      ⟨"t1", "a1", "deposit", 3, none, 10⟩] : List Tx).Sorted createdDesc ∧
    (ListOut.ok [⟨"t2", "a1", "deposit", 4, none, 20⟩,
                 ⟨"t1", "a1", "deposit", 3, none, 10⟩] 1 20 2 : ListOut) =
      .ok [⟨"t2", "a1", "deposit", 4, none, 20⟩,
           ⟨"t1", "a1", "deposit", 3, none, 10⟩] 1 20 2 := by
  have h := claim_c4_list_sorted_deterministic "u"
  have hrel : listTransactionsRel ⟨some "a1", none, none⟩ "u"
      ⟨[⟨"a1", "u", "EUR", 7, 0⟩],
        [⟨"t1", "a1", "deposit", 3, none, 10⟩,
         ⟨"t2", "a1", "deposit", 4, none, 20⟩]⟩
      (.ok [⟨"t2", "a1", "deposit", 4, none, 20⟩,
            ⟨"t1", "a1", "deposit", 3, none, 10⟩] 1 20 2) := by
    unfold listTransactionsRel
    rw [show listValidate ⟨some "a1", none, none⟩ "u"
        ⟨[⟨"a1", "u", "EUR", 7, 0⟩],
          [⟨"t1", "a1", "deposit", 3, none, 10⟩,
           ⟨"t2", "a1", "deposit", 4, none, 20⟩]⟩ =
        .ok (⟨"a1", "u", "EUR", 7, 0⟩, 1, 20) from rfl]
    exact ⟨[⟨"t2", "a1", "deposit", 4, none, 20⟩,
            ⟨"t1", "a1", "deposit", 3, none, 10⟩],
      by decide, by decide, by decide⟩
  refine ⟨h.1 _ _ _ 1 20 2 hrel, h.2 _ _ _ _ ?_ hrel hrel⟩
  intro acct p l hv
  have h2 := (show listValidate ⟨some "a1", none, none⟩ "u"
      ⟨[⟨"a1", "u", "EUR", 7, 0⟩],
        [⟨"t1", "a1", "deposit", 3, none, 10⟩,
         ⟨"t2", "a1", "deposit", 4, none, 20⟩]⟩ =
      Except.ok ((⟨"a1", "u", "EUR", 7, 0⟩ : Account), (1 : Int), (20 : Int))
    from rfl).symm.trans hv
  injection h2 with h3
  have h4 : (⟨"a1", "u", "EUR", 7, 0⟩ : Account) = acct := congrArg Prod.fst h3
  rw [← h4]
  decide
